import Mathlib

/-!
# Verification of the lucid_fastapi_app post service (`src/main.py`)

A shallow embedding of the FastAPI note/post service: SQLAlchemy rows become
Lean structures, the database session becomes an explicit `DB` value, the
`cachetools.TTLCache(maxsize=100, ttl=300)` becomes an explicit list of timed
entries, and each endpoint becomes a pure function from the request arguments
and the current state to a response together with the next state.  Time is an
explicit `Nat` argument (seconds); the clock read `int(time.time())` that
SQLAlchemy evaluates once when the module is loaded is modelled by the fixed
parameter `importTime`.
-/

set_option autoImplicit false

namespace LucidApp

/-- A row of the `users` table (`class User` in `main.py`):
`id`, unique `email`, bcrypt-hashed `password`, unique bearer `token`. -/
structure User where
  id : Nat
  email : String
  password : String
  token : String
deriving DecidableEq, Repr

/-- A row of the `posts` table (`class Post` in `main.py`):
`id`, `text`, owner foreign key `user_id`, and `created_at`.
In the source, `created_at = Column(Integer, default=int(time.time()))`
evaluates `int(time.time())` once, at module import; the stored default is
therefore the import-time constant, not the insertion time. -/
structure Post where
  id : Nat
  text : String
  user_id : Nat
  created_at : Nat
deriving DecidableEq, Repr

/-- The mutable database state behind the SQLAlchemy session: the two tables
plus the autoincrement counters that generate primary keys. -/
structure DB where
  users : List User
  posts : List Post
  nextUserId : Nat
  nextPostId : Nat
deriving DecidableEq, Repr

/-- One entry of the `TTLCache`: key (the bearer token), the cached list of
posts, and the absolute expiry instant `insertion time + ttl`. -/
structure CacheEntry where
  key : String
  value : List Post
  expiresAt : Nat
deriving DecidableEq, Repr

/-- The module-level `cache = TTLCache(maxsize=100, ttl=300)`, modelled as a
list of entries ordered oldest-inserted first (at most one entry per key). -/
structure Cache where
  entries : List CacheEntry
deriving DecidableEq, Repr

/-- `maxsize=100` of the `TTLCache`. -/
def maxsize : Nat := 100

/-- `ttl=300` (seconds) of the `TTLCache`. -/
def ttl : Nat := 300

/-- `TTLCache` lookup (`token in cache` / `cache[token]`): an entry is served
only while `now < expiresAt`; an expired-but-present entry behaves as absent. -/
def cacheGet (c : Cache) (now : Nat) (k : String) : Option (List Post) :=
  match c.entries.find? (fun e => e.key == k) with
  | none => none
  | some e => if now < e.expiresAt then some e.value else none

/-- `TTLCache.__setitem__` (`cache[token] = posts`): expired entries are
dropped, an existing entry for the key is replaced, and if the insertion would
exceed `maxsize` the cache evicts oldest-inserted entries until it fits.  The
new entry expires at `now + ttl`. -/
def cachePut (c : Cache) (now : Nat) (k : String) (v : List Post) : Cache :=
  let live := (c.entries.filter (fun e => now < e.expiresAt)).filter
    (fun e => e.key != k)
  let room := if maxsize ≤ live.length then
    live.drop (live.length + 1 - maxsize) else live
  ⟨room ++ [⟨k, v, now + ttl⟩]⟩

/-- Black-box model of the passlib bcrypt pair: `hash_password` produces an
opaque digest from which the plaintext is not compared directly, and
`verify_password` succeeds exactly on the originating plaintext (bcrypt's
contract, collisions being negligible). -/
def hash_password (password : String) : String :=
  "bcrypt$" ++ password

/-- See `hash_password`: `pwd_context.verify(plain, hashed)`. -/
def verify_password (plain_password hashed_password : String) : Bool :=
  hashed_password == hash_password plain_password

/-- An `HTTPException(status_code, detail)` as surfaced to the caller. -/
structure HTTPError where
  status : Nat
  detail : String
deriving DecidableEq, Repr

/-- ConflictError: `HTTPException(400, "Email already registered")`. -/
def emailRegistered : HTTPError := ⟨400, "Email already registered"⟩

/-- AuthenticationError: `HTTPException(400, "Invalid credentials")`. -/
def invalidCredentials : HTTPError := ⟨400, "Invalid credentials"⟩

/-- AuthorizationError: `HTTPException(401, "Invalid or missing token")`. -/
def invalidToken : HTTPError := ⟨401, "Invalid or missing token"⟩

/-- NotFoundError: `HTTPException(404, "Post not found")`. -/
def postNotFound : HTTPError := ⟨404, "Post not found"⟩

/-- `get_user_by_token`: `db.query(User).filter(User.token == token).first()`. -/
def get_user_by_token (db : DB) (token : String) : Option User :=
  db.users.find? (fun u => u.token == token)

/-- `POST /signup`.  The freshly generated `secrets.token_hex(16)` value is
passed in as `newToken` (token generation is external randomness).  Checks
email uniqueness first; on conflict raises 400 before any mutation, otherwise
inserts the new user and returns its token. -/
def signup (db : DB) (email password newToken : String) :
    Except HTTPError String × DB :=
  match db.users.find? (fun u => u.email == email) with
  | some _ => (.error emailRegistered, db)
  | none =>
    let hashed_pw := hash_password password
    let new_user : User := ⟨db.nextUserId, email, hashed_pw, newToken⟩
    (.ok new_user.token,
      { db with users := db.users ++ [new_user],
                nextUserId := db.nextUserId + 1 })

/-- `POST /login`: fetch the account by email; if absent or the presented
password fails verification, raise the one generic 400; else return the
stored token.  Never mutates anything. -/
def login (db : DB) (email password : String) : Except HTTPError String :=
  match db.users.find? (fun u => u.email == email) with
  | none => .error invalidCredentials
  | some db_user =>
    if verify_password password db_user.password then .ok db_user.token
    else .error invalidCredentials

/-- `POST /addpost`: resolve the token (401 before any mutation if it does not
resolve), insert the post, return its id.  Does not touch the cache.  The
stored `created_at` is the module-load constant `importTime` (see `Post`). -/
def add_post (importTime : Nat) (db : DB) (token text : String) :
    Except HTTPError Nat × DB :=
  match get_user_by_token db token with
  | none => (.error invalidToken, db)
  | some user =>
    let new_post : Post := ⟨db.nextPostId, text, user.id, importTime⟩
    (.ok new_post.id,
      { db with posts := db.posts ++ [new_post],
                nextPostId := db.nextPostId + 1 })

/-- `GET /getposts`: resolve the token (401 if not), serve the cached list if
fresh, otherwise query the user's posts, cache them for `ttl` seconds, and
return them. -/
def get_posts (now : Nat) (db : DB) (c : Cache) (token : String) :
    Except HTTPError (List Post) × Cache :=
  match get_user_by_token db token with
  | none => (.error invalidToken, c)
  | some user =>
    match cacheGet c now token with
    | some posts => (.ok posts, c)
    | none =>
      let posts := db.posts.filter (fun p => p.user_id == user.id)
      (.ok posts, cachePut c now token posts)

/-- `DELETE /deletepost/{post_id}`: resolve the token (401 if not), look the
post up scoped by `Post.id == post_id AND Post.user_id == user.id`; 404 if
absent-or-not-owned, else delete exactly that row.  Does not touch the cache. -/
def delete_post (db : DB) (post_id : Nat) (token : String) :
    Except HTTPError String × DB :=
  match get_user_by_token db token with
  | none => (.error invalidToken, db)
  | some user =>
    match db.posts.find? (fun p => p.id == post_id && p.user_id == user.id) with
    | none => (.error postNotFound, db)
    | some _ =>
      (.ok "Post deleted",
        { db with posts :=
            db.posts.eraseP (fun p => p.id == post_id && p.user_id == user.id) })

/-- The whole process state: database, the module-level cache, and the
constant clock value captured at module import (see `Post.created_at`). -/
structure Sys where
  db : DB
  cache : Cache
  importTime : Nat
deriving DecidableEq, Repr

/-- One request to the service. -/
inductive Req where
  | signup (email password newToken : String)
  | login (email password : String)
  | addPost (token text : String)
  | getPosts (token : String)
  | deletePost (postId : Nat) (token : String)
deriving DecidableEq, Repr

/-- A successful response body. -/
inductive Resp where
  | token (t : String)
  | postId (id : Nat)
  | posts (ps : List Post)
  | detail (s : String)
deriving DecidableEq, Repr

/-- Dispatch one request at wall-clock time `now` against the process state. -/
def step (now : Nat) (r : Req) (s : Sys) : Except HTTPError Resp × Sys :=
  match r with
  | .signup email password newToken =>
    match signup s.db email password newToken with
    | (.error e, db') => (.error e, { s with db := db' })
    | (.ok t, db') => (.ok (.token t), { s with db := db' })
  | .login email password =>
    match login s.db email password with
    | .error e => (.error e, s)
    | .ok t => (.ok (.token t), s)
  | .addPost token text =>
    match add_post s.importTime s.db token text with
    | (.error e, db') => (.error e, { s with db := db' })
    | (.ok pid, db') => (.ok (.postId pid), { s with db := db' })
  | .getPosts token =>
    match get_posts now s.db s.cache token with
    | (.error e, c') => (.error e, { s with cache := c' })
    | (.ok ps, c') => (.ok (.posts ps), { s with cache := c' })
  | .deletePost postId token =>
    match delete_post s.db postId token with
    | (.error e, db') => (.error e, { s with db := db' })
    | (.ok m, db') => (.ok (.detail m), { s with db := db' })

/-- Run a timed request trace, keeping only the evolving state. -/
def run (reqs : List (Nat × Req)) (s : Sys) : Sys :=
  reqs.foldl (fun s nr => (step nr.1 nr.2 s).2) s

/-! ## Concrete fixtures used to instantiate the theorems -/

/-- A first registered account. -/
def user1 : User := ⟨1, "a@b.c", hash_password "secret1", "tok1"⟩

/-- A second registered account. -/
def user2 : User := ⟨2, "c@d.e", hash_password "secret2", "tok2"⟩

/-- A post owned by `user1`. -/
def postA : Post := ⟨1, "alpha", 1, 400⟩

/-- A post owned by `user2`. -/
def postB : Post := ⟨2, "beta", 2, 400⟩

/-- A populated database: two accounts, one post each. -/
def dbW : DB := ⟨[user1, user2], [postA, postB], 3, 3⟩

/-- The empty database right after `create_all`. -/
def dbEmpty : DB := ⟨[], [], 1, 1⟩

/-- A process state over `dbW` with a cold cache; the module was imported at
second 500. -/
def sysW : Sys := ⟨dbW, ⟨[]⟩, 500⟩

/-- `dbEmpty` after one successful signup. -/
def dbOne : DB := ⟨[⟨1, "a@b.c", hash_password "secret", "t1"⟩], [], 2, 1⟩

/-! ## Helper lemmas -/

theorem hash_password_inj {a b : String}
    (h : hash_password a = hash_password b) : a = b := by
  unfold hash_password at h
  have hd := congrArg String.data h
  simp only [String.data_append] at hd
  exact String.ext ((List.append_right_inj _).mp hd)

theorem verify_password_hash (p : String) :
    verify_password p (hash_password p) = true := by
  simp [verify_password]

theorem verify_password_wrong {p q : String} (h : p ≠ q) :
    verify_password q (hash_password p) = false := by
  simp only [verify_password, beq_eq_false_iff_ne, ne_eq]
  exact fun hc => h (hash_password_inj hc)

theorem get_user_by_token_eq_none {db : DB} {t : String}
    (h : ∀ u ∈ db.users, u.token ≠ t) : get_user_by_token db t = none := by
  unfold get_user_by_token
  exact List.find?_eq_none.mpr (fun u hu => by simp [h u hu])

theorem cacheGet_none_of_no_key {c : Cache} {t : String} (now : Nat)
    (h : c.entries.find? (fun e => e.key == t) = none) :
    cacheGet c now t = none := by
  unfold cacheGet
  rw [h]

/-- Looking the key just written up again serves the new value while it is
fresh and misses once it has expired. -/
theorem cacheGet_cachePut_same (c : Cache) (now now' : Nat) (k : String)
    (v : List Post) :
    cacheGet (cachePut c now k v) now' k =
      if now' < now + ttl then some v else none := by
  unfold cacheGet cachePut
  have hlivekey : ∀ e ∈ (c.entries.filter (fun e => now < e.expiresAt)).filter
      (fun e => e.key != k), ¬ (e.key == k) = true := by
    intro e he
    have h2 := (List.mem_filter.mp he).2
    simp only [bne_iff_ne, ne_eq, decide_eq_true_eq] at h2
    simp [h2]
  have hroomkey : ∀ e ∈ (if maxsize ≤
        ((c.entries.filter (fun e => now < e.expiresAt)).filter
          (fun e => e.key != k)).length then
        ((c.entries.filter (fun e => now < e.expiresAt)).filter
          (fun e => e.key != k)).drop
          (((c.entries.filter (fun e => now < e.expiresAt)).filter
            (fun e => e.key != k)).length + 1 - maxsize)
      else (c.entries.filter (fun e => now < e.expiresAt)).filter
        (fun e => e.key != k)), ¬ (e.key == k) = true := by
    intro e he
    split at he
    · exact hlivekey e (List.drop_subset _ _ he)
    · exact hlivekey e he
  rw [List.find?_append, List.find?_eq_none.mpr hroomkey]
  simp

theorem cachePut_length_le (c : Cache) (now : Nat) (k : String)
    (v : List Post) : (cachePut c now k v).entries.length ≤ maxsize := by
  unfold cachePut
  simp only [List.length_append, List.length_cons, List.length_nil]
  split
  · rename_i hge
    rw [List.length_drop]
    simp only [maxsize] at *
    omega
  · rename_i hlt
    simp only [maxsize] at *
    omega

theorem get_posts_cache_length {now : Nat} {db : DB} {c : Cache} {t : String}
    (h : c.entries.length ≤ maxsize) :
    ((get_posts now db c t).2).entries.length ≤ maxsize := by
  unfold get_posts
  split
  · exact h
  · split
    · exact h
    · exact cachePut_length_le ..

theorem step_cache_length (now : Nat) (r : Req) (s : Sys)
    (h : s.cache.entries.length ≤ maxsize) :
    ((step now r s).2).cache.entries.length ≤ maxsize := by
  cases r with
  | signup e p t => simp only [step]; split <;> exact h
  | login e p => simp only [step]; split <;> exact h
  | addPost t x => simp only [step]; split <;> exact h
  | getPosts t =>
    simp only [step]
    split <;> rename_i heq <;>
    · have h2 := @get_posts_cache_length now s.db s.cache t h
      rw [heq] at h2
      simpa using h2
  | deletePost pid t => simp only [step]; split <;> exact h

theorem run_cache_length (reqs : List (Nat × Req)) (s : Sys)
    (h : s.cache.entries.length ≤ maxsize) :
    (run reqs s).cache.entries.length ≤ maxsize := by
  induction reqs generalizing s with
  | nil => exact h
  | cons nr tl ih => exact ih _ (step_cache_length nr.1 nr.2 s h)

theorem add_post_ok (importTime : Nat) (db : DB) (t x : String) (u : User)
    (hu : get_user_by_token db t = some u) :
    add_post importTime db t x =
      (.ok db.nextPostId,
       { db with posts := db.posts ++ [⟨db.nextPostId, x, u.id, importTime⟩],
                 nextPostId := db.nextPostId + 1 }) := by
  unfold add_post
  rw [hu]

theorem get_posts_miss (now : Nat) (db : DB) (c : Cache) (t : String) (u : User)
    (hu : get_user_by_token db t = some u) (hmiss : cacheGet c now t = none) :
    get_posts now db c t =
      (.ok (db.posts.filter (fun p => p.user_id == u.id)),
       cachePut c now t (db.posts.filter (fun p => p.user_id == u.id))) := by
  unfold get_posts
  rw [hu, hmiss]

theorem get_posts_hit (now : Nat) (db : DB) (c : Cache) (t : String) (u : User)
    (ps : List Post) (hu : get_user_by_token db t = some u)
    (hhit : cacheGet c now t = some ps) :
    get_posts now db c t = (.ok ps, c) := by
  unfold get_posts
  rw [hu, hhit]

theorem find?_email_append (l : List User) (nu : User) (e : String)
    (hnone : l.find? (fun x => x.email == e) = none) (hnu : nu.email = e) :
    (l ++ [nu]).find? (fun x => x.email == e) = some nu := by
  rw [List.find?_append, hnone]
  simp [hnu]

theorem signup_ok_shape (db : DB) (e pw tok : String)
    (hfind : db.users.find? (fun u => u.email == e) = none) :
    signup db e pw tok = (.ok tok,
      { db with users := db.users ++ [⟨db.nextUserId, e, hash_password pw, tok⟩],
                nextUserId := db.nextUserId + 1 }) := by
  unfold signup
  rw [hfind]

theorem signup_dup (db : DB) (e : String) (u : User)
    (hfind : db.users.find? (fun x => x.email == e) = some u) :
    ∀ pw2 tok2, signup db e pw2 tok2 = (.error emailRegistered, db) := by
  intro pw2 tok2
  unfold signup
  rw [hfind]

theorem login_ok (db : DB) (e pw : String) (u : User)
    (hfind : db.users.find? (fun x => x.email == e) = some u)
    (hver : verify_password pw u.password = true) :
    login db e pw = .ok u.token := by
  unfold login
  rw [hfind]
  simp [hver]

theorem delete_post_ok_shape (db : DB) (pid : Nat) (t : String) (u : User)
    (p : Post) (hu : get_user_by_token db t = some u)
    (hfind : db.posts.find? (fun q => q.id == pid && q.user_id == u.id) = some p) :
    delete_post db pid t = (.ok "Post deleted",
      { db with posts :=
          db.posts.eraseP (fun q => q.id == pid && q.user_id == u.id) }) := by
  unfold delete_post
  simp only [hu, hfind]

/-- An element that is the unique satisfier of `p` in a duplicate-free list is
gone after `eraseP p`. -/
theorem not_mem_eraseP_of_unique {α : Type} {l : List α} {p : α → Bool} {a : α}
    (hnd : l.Nodup) (hpa : p a = true)
    (huniq : ∀ b ∈ l, p b = true → b = a) : a ∉ l.eraseP p := by
  induction l with
  | nil => simp
  | cons b tl ih =>
    have hnd' := List.nodup_cons.mp hnd
    by_cases hb : p b
    · rw [List.eraseP_cons_of_pos hb]
      have hba : b = a := huniq b (List.mem_cons_self b tl) hb
      rw [← hba]
      exact hnd'.1
    · rw [List.eraseP_cons_of_neg hb]
      intro hmem
      rcases List.mem_cons.mp hmem with heq | htl
      · exact hb (heq ▸ hpa)
      · exact ih hnd'.2
          (fun x hx hpx => huniq x (List.mem_cons_of_mem b hx) hpx) htl

theorem signup_error_frame {db : DB} {e p t : String} {err : HTTPError}
    (h : (signup db e p t).1 = .error err) : (signup db e p t).2 = db := by
  cases hfind : db.users.find? (fun u => u.email == e) with
  | some u =>
    unfold signup
    rw [hfind]
  | none =>
    have hok : (signup db e p t).1 = .ok t := by
      unfold signup
      rw [hfind]
    rw [hok] at h
    exact absurd h (by simp)

theorem add_post_error_frame {importTime : Nat} {db : DB} {t x : String}
    {err : HTTPError} (h : (add_post importTime db t x).1 = .error err) :
    (add_post importTime db t x).2 = db := by
  cases hu : get_user_by_token db t with
  | none =>
    unfold add_post
    rw [hu]
  | some u =>
    have hok : (add_post importTime db t x).1 = .ok db.nextPostId := by
      rw [add_post_ok importTime db t x u hu]
    rw [hok] at h
    exact absurd h (by simp)

theorem get_posts_error_frame {now : Nat} {db : DB} {c : Cache} {t : String}
    {err : HTTPError} (h : (get_posts now db c t).1 = .error err) :
    (get_posts now db c t).2 = c := by
  cases hu : get_user_by_token db t with
  | none =>
    unfold get_posts
    rw [hu]
  | some u =>
    cases hg : cacheGet c now t with
    | some ps => rw [get_posts_hit now db c t u ps hu hg]
    | none =>
      have hok : (get_posts now db c t).1 =
          .ok (db.posts.filter (fun q => q.user_id == u.id)) := by
        rw [get_posts_miss now db c t u hu hg]
      rw [hok] at h
      exact absurd h (by simp)

theorem delete_post_error_frame {db : DB} {pid : Nat} {t : String}
    {err : HTTPError} (h : (delete_post db pid t).1 = .error err) :
    (delete_post db pid t).2 = db := by
  cases hu : get_user_by_token db t with
  | none =>
    unfold delete_post
    rw [hu]
  | some u =>
    cases hfind : db.posts.find? (fun q => q.id == pid && q.user_id == u.id) with
    | none =>
      unfold delete_post
      simp only [hu, hfind]
    | some q =>
      have hok : (delete_post db pid t).1 = .ok "Post deleted" := by
        rw [delete_post_ok_shape db pid t u q hu hfind]
      rw [hok] at h
      exact absurd h (by simp)

/-! ## Claims -/

/-- C2: the create-post and delete-post operations leave the cache completely
unchanged: neither `add_post` nor `delete_post` ever reads or writes the
module-level `cache`, on success or on failure. -/
theorem C2_writes_never_touch_cache (now pid : Nat) (s : Sys) (tok text : String) :
    ((step now (.addPost tok text) s).2).cache = s.cache ∧
    ((step now (.deletePost pid tok) s).2).cache = s.cache := by
  constructor
  · simp only [step]
    split <;> rfl
  · simp only [step]
    split <;> rfl

/-- C5: every protected operation (create post, list posts, delete post)
presented with a token held by no account — the empty string included —
fails with the 401 AuthorizationError. -/
theorem C5_unissued_token_rejected (importTime now pid : Nat) (db : DB)
    (c : Cache) (t text : String)
    (h : ∀ u ∈ db.users, u.token ≠ t) :
    (add_post importTime db t text).1 = .error invalidToken ∧
    (get_posts now db c t).1 = .error invalidToken ∧
    (delete_post db pid t).1 = .error invalidToken := by
  have hres := get_user_by_token_eq_none h
  refine ⟨?_, ?_, ?_⟩
  · unfold add_post
    rw [hres]
  · unfold get_posts
    rw [hres]
  · unfold delete_post
    rw [hres]

/-- Witness for C5 at the empty token against the populated fixture. -/
theorem C5_unissued_token_rejected_witness :
    (∀ u ∈ dbW.users, u.token ≠ "") ∧
    (add_post 500 dbW "" "hi").1 = .error invalidToken ∧
    (get_posts 600 dbW ⟨[]⟩ "").1 = .error invalidToken ∧
    (delete_post dbW 1 "").1 = .error invalidToken :=
  ⟨by decide, C5_unissued_token_rejected 500 600 1 dbW ⟨[]⟩ "" "hi" (by decide)⟩

/-- C7: across any timed trace of requests, the number of entries resident in
the module-level `TTLCache` never exceeds the configured capacity of 100:
an insertion at capacity first evicts, so the bound is preserved by every
step. -/
theorem C7_cache_capacity (reqs : List (Nat × Req)) (s : Sys)
    (h : s.cache.entries.length ≤ 100) :
    (run reqs s).cache.entries.length ≤ 100 :=
  run_cache_length reqs s h

/-- Witness for C7: a trace that lists posts (populating the cache) starting
from the cold fixture state. -/
theorem C7_cache_capacity_witness :
    sysW.cache.entries.length ≤ 100 ∧
    (run [(600, .getPosts "tok1"), (601, .getPosts "tok2")]
        sysW).cache.entries.length ≤ 100 :=
  ⟨by decide,
   C7_cache_capacity [(600, .getPosts "tok1"), (601, .getPosts "tok2")] sysW
     (by decide)⟩

/-- C1: for a token `t` resolving to account `u`, (a) a `createPost(t,"hello")`
followed by a `listPosts(t)` with no cache entry ever populated for `t`
returns a sequence containing "hello"; (b) if `listPosts(t)` ran once at `t1`
(populating the cache) before the create, a second `listPosts(t)` at
`t2 < t1 + ttl` returns exactly the pre-create sequence; (c) a `listPosts(t)`
at `t3 ≥ t1 + ttl` reflects the create. -/
theorem C1_roundtrip_staleness_expiry (importTime ta t1 t2 t3 : Nat)
    (db : DB) (c : Cache) (t : String) (u : User)
    (hu : get_user_by_token db t = some u)
    (hkey : c.entries.find? (fun e => e.key == t) = none)
    (hfresh : t2 < t1 + ttl) (hexp : t1 + ttl ≤ t3) :
    (∃ out, (get_posts ta (add_post importTime db t "hello").2 c t).1 = .ok out ∧
      ∃ p ∈ out, p.text = "hello") ∧
    ((get_posts t2 (add_post importTime db t "hello").2
        (get_posts t1 db c t).2 t).1 = (get_posts t1 db c t).1) ∧
    (∃ out, (get_posts t3 (add_post importTime db t "hello").2
        (get_posts t1 db c t).2 t).1 = .ok out ∧
      ∃ p ∈ out, p.text = "hello") := by
  have hadd2 : (add_post importTime db t "hello").2 =
      { db with posts := db.posts ++ [⟨db.nextPostId, "hello", u.id, importTime⟩],
                nextPostId := db.nextPostId + 1 } := by
    rw [add_post_ok importTime db t "hello" u hu]
  have hu2 : get_user_by_token (add_post importTime db t "hello").2 t = some u := by
    rw [hadd2]
    exact hu
  have hmem : ∃ p ∈ ((add_post importTime db t "hello").2.posts.filter
      (fun p => p.user_id == u.id)), p.text = "hello" := by
    rw [hadd2]
    refine ⟨⟨db.nextPostId, "hello", u.id, importTime⟩, ?_, rfl⟩
    simp [List.mem_filter]
  have h1 := get_posts_miss t1 db c t u hu (cacheGet_none_of_no_key t1 hkey)
  have h1fst : (get_posts t1 db c t).1 =
      .ok (db.posts.filter (fun p => p.user_id == u.id)) := by rw [h1]
  have h1snd : (get_posts t1 db c t).2 =
      cachePut c t1 t (db.posts.filter (fun p => p.user_id == u.id)) := by rw [h1]
  refine ⟨?_, ?_, ?_⟩
  · have ha := get_posts_miss ta (add_post importTime db t "hello").2 c t u hu2
      (cacheGet_none_of_no_key ta hkey)
    exact ⟨_, by rw [ha], hmem⟩
  · have hhit : cacheGet (get_posts t1 db c t).2 t2 t =
        some (db.posts.filter (fun p => p.user_id == u.id)) := by
      rw [h1snd, cacheGet_cachePut_same]
      simp [hfresh]
    have h2 := get_posts_hit t2 (add_post importTime db t "hello").2
      (get_posts t1 db c t).2 t u
      (db.posts.filter (fun p => p.user_id == u.id)) hu2 hhit
    rw [h2, h1fst]
  · have hmiss3 : cacheGet (get_posts t1 db c t).2 t3 t = none := by
      rw [h1snd, cacheGet_cachePut_same]
      simp only [ite_eq_right_iff]
      omega
    have h3 := get_posts_miss t3 (add_post importTime db t "hello").2
      (get_posts t1 db c t).2 t u hu2 hmiss3
    exact ⟨_, by rw [h3], hmem⟩

/-- Witness for C1: the populated fixture, token of the first account, module
imported at 500, first list at 700, stale read at 800, expired read at 1000. -/
theorem C1_roundtrip_staleness_expiry_witness :
    get_user_by_token dbW "tok1" = some user1 ∧
    (Cache.mk []).entries.find? (fun e => e.key == "tok1") = none ∧
    800 < 700 + ttl ∧ 700 + ttl ≤ 1000 ∧
    ((get_posts 800 (add_post 500 dbW "tok1" "hello").2
        (get_posts 700 dbW ⟨[]⟩ "tok1").2 "tok1").1
      = (get_posts 700 dbW ⟨[]⟩ "tok1").1) :=
  ⟨by decide, by decide, by decide, by decide,
   (C1_roundtrip_staleness_expiry 500 600 700 800 1000 dbW ⟨[]⟩ "tok1" user1
     (by decide) (by decide) (by decide) (by decide)).2.1⟩

/-- C3: after a successful signup for email `e`, a second signup with `e`
fails with the 400 ConflictError and leaves the store untouched (no
overwrite), and the first account's token still logs in with the original
credentials. -/
theorem C3_duplicate_signup_rejected (db db1 : DB) (e pw1 pw2 tok1 tok2 : String)
    (h : signup db e pw1 tok1 = (.ok tok1, db1)) :
    signup db1 e pw2 tok2 = (.error emailRegistered, db1) ∧
    login db1 e pw1 = .ok tok1 := by
  cases hfind : db.users.find? (fun x => x.email == e) with
  | some u =>
    rw [signup_dup db e u hfind pw1 tok1] at h
    exact absurd (congrArg Prod.fst h) (by simp)
  | none =>
    rw [signup_ok_shape db e pw1 tok1 hfind] at h
    have hdb1 : db1 =
        { db with users := db.users ++ [⟨db.nextUserId, e, hash_password pw1, tok1⟩],
                  nextUserId := db.nextUserId + 1 } :=
      (congrArg Prod.snd h).symm
    subst hdb1
    have hfind2 : (db.users ++
        [(⟨db.nextUserId, e, hash_password pw1, tok1⟩ : User)]).find?
          (fun x => x.email == e) =
        some ⟨db.nextUserId, e, hash_password pw1, tok1⟩ :=
      find?_email_append db.users ⟨db.nextUserId, e, hash_password pw1, tok1⟩ e
        hfind rfl
    refine ⟨signup_dup _ e _ hfind2 pw2 tok2, ?_⟩
    exact login_ok _ e pw1 ⟨db.nextUserId, e, hash_password pw1, tok1⟩ hfind2
      (verify_password_hash pw1)

/-- Witness for C3: signup twice with the same email starting from the empty
store. -/
theorem C3_duplicate_signup_rejected_witness :
    signup dbEmpty "a@b.c" "secret" "t1" = (.ok "t1", dbOne) ∧
    signup dbOne "a@b.c" "other1" "t2" = (.error emailRegistered, dbOne) ∧
    login dbOne "a@b.c" "secret" = .ok "t1" :=
  ⟨rfl,
   C3_duplicate_signup_rejected dbEmpty dbOne "a@b.c" "secret" "other1" "t1" "t2"
     rfl⟩

/-- C4: a login against a registered email with a password other than the one
it signed up with, and a login against an unregistered email, fail with the
very same 400 response — the caller cannot tell which field was wrong. -/
theorem C4_login_failures_indistinguishable (db : DB)
    (e1 e2 pw pw2 p0 : String) (u : User)
    (hreg : db.users.find? (fun x => x.email == e1) = some u)
    (hpw : u.password = hash_password p0)
    (hwrong : pw ≠ p0)
    (hno : db.users.find? (fun x => x.email == e2) = none) :
    login db e1 pw = .error invalidCredentials ∧
    login db e2 pw2 = .error invalidCredentials ∧
    login db e1 pw = login db e2 pw2 := by
  have hv : verify_password pw u.password = false := by
    rw [hpw]
    exact verify_password_wrong (Ne.symm hwrong)
  have h1 : login db e1 pw = .error invalidCredentials := by
    unfold login
    rw [hreg]
    simp [hv]
  have h2 : login db e2 pw2 = .error invalidCredentials := by
    unfold login
    rw [hno]
  exact ⟨h1, h2, h1.trans h2.symm⟩

/-- Witness for C4: wrong password for the first fixture account versus a
never-registered email. -/
theorem C4_login_failures_indistinguishable_witness :
    dbW.users.find? (fun x => x.email == "a@b.c") = some user1 ∧
    user1.password = hash_password "secret1" ∧
    ("wrong1" : String) ≠ "secret1" ∧
    dbW.users.find? (fun x => x.email == "nobody@x.y") = none ∧
    login dbW "a@b.c" "wrong1" = login dbW "nobody@x.y" "whatever" :=
  ⟨by decide, by decide, by decide, by decide,
   (C4_login_failures_indistinguishable dbW "a@b.c" "nobody@x.y" "wrong1"
     "whatever" "secret1" user1 (by decide) (by decide) (by decide)
     (by decide)).2.2⟩

/-- C6: for an authenticated account `u`, `delete_post` answers the one 404
NotFoundError whenever no post both has id `pid` and is owned by `u` — post
absent and post-owned-by-someone-else are indistinguishable — and the store
is left unchanged (nothing is deleted).  The lookup is ownership-scoped:
the hypothesis permits a post with id `pid` owned by another account. -/
theorem C6_delete_absent_or_not_owned (db : DB) (t : String) (pid : Nat)
    (u : User) (hu : get_user_by_token db t = some u)
    (hno : ∀ p ∈ db.posts, p.id = pid → p.user_id ≠ u.id) :
    delete_post db pid t = (.error postNotFound, db) := by
  have hfind : db.posts.find? (fun p => p.id == pid && p.user_id == u.id)
      = none := by
    refine List.find?_eq_none.mpr (fun p hp => ?_)
    simp only [Bool.and_eq_true, beq_iff_eq, not_and]
    exact fun h1 => hno p hp h1
  unfold delete_post
  simp only [hu, hfind]

/-- Witness for C6: `user1` tries to delete `postB`, which exists but belongs
to `user2`. -/
theorem C6_delete_absent_or_not_owned_witness :
    get_user_by_token dbW "tok1" = some user1 ∧
    (∀ p ∈ dbW.posts, p.id = 2 → p.user_id ≠ user1.id) ∧
    delete_post dbW 2 "tok1" = (.error postNotFound, dbW) :=
  ⟨by decide, by decide,
   C6_delete_absent_or_not_owned dbW "tok1" 2 user1 (by decide) (by decide)⟩

/-- C9: a successful `delete_post` removes exactly the one post with the
requested id: assuming the store's primary-key uniqueness, the surviving
posts are precisely the original posts with a different id, exactly one row
is gone, and the accounts table — tokens included — is untouched. -/
theorem C9_delete_removes_exactly_one (db : DB) (t m : String) (pid : Nat)
    (hnodup : (db.posts.map Post.id).Nodup)
    (hok : (delete_post db pid t).1 = .ok m) :
    (delete_post db pid t).2.users = db.users ∧
    (∃ p ∈ db.posts, p.id = pid) ∧
    (delete_post db pid t).2.posts.length + 1 = db.posts.length ∧
    (∀ q, q ∈ (delete_post db pid t).2.posts ↔ q ∈ db.posts ∧ q.id ≠ pid) := by
  cases hu : get_user_by_token db t with
  | none =>
    have hbad : (delete_post db pid t).1 = .error invalidToken := by
      unfold delete_post
      rw [hu]
    rw [hbad] at hok
    exact absurd hok (by simp)
  | some u =>
    cases hfind : db.posts.find? (fun q => q.id == pid && q.user_id == u.id) with
    | none =>
      have hbad : (delete_post db pid t).1 = .error postNotFound := by
        unfold delete_post
        simp only [hu, hfind]
      rw [hbad] at hok
      exact absurd hok (by simp)
    | some p =>
      have hshape := delete_post_ok_shape db pid t u p hu hfind
      have hpredp := List.find?_some hfind
      simp only [Bool.and_eq_true, beq_iff_eq] at hpredp
      obtain ⟨hpid, huid⟩ := hpredp
      have hpmem := List.mem_of_find?_eq_some hfind
      have hnd : db.posts.Nodup := List.Nodup.of_map Post.id hnodup
      refine ⟨by rw [hshape], ⟨p, hpmem, hpid⟩, ?_, ?_⟩
      · rw [hshape]
        show (db.posts.eraseP
          (fun q => q.id == pid && q.user_id == u.id)).length + 1
            = db.posts.length
        rw [List.length_eraseP_of_mem hpmem (by simp [hpid, huid])]
        have hpos : 0 < db.posts.length := List.length_pos_of_mem hpmem
        omega
      · intro q
        rw [hshape]
        show q ∈ db.posts.eraseP (fun q => q.id == pid && q.user_id == u.id) ↔
          q ∈ db.posts ∧ q.id ≠ pid
        constructor
        · intro hq
          have hqmem : q ∈ db.posts := List.eraseP_subset _ hq
          refine ⟨hqmem, fun hqid => ?_⟩
          have hqp : q = p :=
            List.inj_on_of_nodup_map hnodup hqmem hpmem (by rw [hqid, hpid])
          subst hqp
          exact not_mem_eraseP_of_unique hnd (by simp [hpid, huid])
            (fun b hb hpb => by
              simp only [Bool.and_eq_true, beq_iff_eq] at hpb
              exact List.inj_on_of_nodup_map hnodup hb hpmem
                (by rw [hpb.1, hpid])) hq
        · rintro ⟨hqmem, hqid⟩
          rw [List.mem_eraseP_of_neg (by simp [hqid])]
          exact hqmem

/-- Witness for C9: `user1` deletes its own `postA` from the fixture store. -/
theorem C9_delete_removes_exactly_one_witness :
    (dbW.posts.map Post.id).Nodup ∧
    (delete_post dbW 1 "tok1").1 = .ok "Post deleted" ∧
    (delete_post dbW 1 "tok1").2.users = dbW.users :=
  ⟨by decide, rfl,
   (C9_delete_removes_exactly_one dbW "tok1" "Post deleted" 1 (by decide)
     rfl).1⟩

/-- C10: whichever request fails with whichever error, the state after the
request — store and cache together — is exactly the state before it: every
`HTTPException` in the source is raised before any mutation. -/
theorem C10_errors_never_mutate (now : Nat) (r : Req) (s : Sys)
    (e : HTTPError) (h : (step now r s).1 = .error e) : (step now r s).2 = s := by
  cases r with
  | signup em p tk =>
    simp only [step] at h ⊢
    split at h
    · rename_i e2 db2 heq
      have hdb : db2 = s.db :=
        (congrArg Prod.snd heq).symm.trans
          (signup_error_frame (congrArg Prod.fst heq))
      show Sys.mk db2 s.cache s.importTime = s
      rw [hdb]
    · rename_i t2 db2 heq
      exact absurd h (by simp)
  | login em p =>
    simp only [step] at h ⊢
    split at h
    · rfl
    · rename_i t2 heq
      exact absurd h (by simp)
  | addPost tk x =>
    simp only [step] at h ⊢
    split at h
    · rename_i e2 db2 heq
      have hdb : db2 = s.db :=
        (congrArg Prod.snd heq).symm.trans
          (add_post_error_frame (congrArg Prod.fst heq))
      show Sys.mk db2 s.cache s.importTime = s
      rw [hdb]
    · rename_i pid2 db2 heq
      exact absurd h (by simp)
  | getPosts tk =>
    simp only [step] at h ⊢
    split at h
    · rename_i e2 c2 heq
      have hc : c2 = s.cache :=
        (congrArg Prod.snd heq).symm.trans
          (get_posts_error_frame (congrArg Prod.fst heq))
      show Sys.mk s.db c2 s.importTime = s
      rw [hc]
    · rename_i ps2 c2 heq
      exact absurd h (by simp)
  | deletePost pid tk =>
    simp only [step] at h ⊢
    split at h
    · rename_i e2 db2 heq
      have hdb : db2 = s.db :=
        (congrArg Prod.snd heq).symm.trans
          (delete_post_error_frame (congrArg Prod.fst heq))
      show Sys.mk db2 s.cache s.importTime = s
      rw [hdb]
    · rename_i m2 db2 heq
      exact absurd h (by simp)

/-- Witness for C10: a failed login against the fixture state is a no-op. -/
theorem C10_errors_never_mutate_witness :
    (step 900 (.login "a@b.c" "bad123") sysW).1 = .error invalidCredentials ∧
    (step 900 (.login "a@b.c" "bad123") sysW).2 = sysW :=
  ⟨rfl,
   C10_errors_never_mutate 900 (.login "a@b.c" "bad123") sysW
     invalidCredentials rfl⟩

/-- C8: the claim that the stored `createdAt` equals each post's own creation
time FAILS on the code.  `created_at = Column(Integer, default=int(time.time()))`
evaluates `int(time.time())` once at module import, so every post receives the
import-time constant: two posts created at seconds 1000 and 2000 in a process
imported at second 500 are both stored with `created_at = 500` (the fixture
posts keep their stored 400), contradicting the model's own "Timestamp when
post was created" intent. -/
theorem C8_created_at_is_import_time_constant :
    (run [(1000, .addPost "tok1" "x"), (2000, .addPost "tok1" "y")]
        sysW).db.posts.map Post.created_at = [400, 400, 500, 500] ∧
    (500 : Nat) ≠ 1000 ∧ (500 : Nat) ≠ 2000 :=
  ⟨by decide, by decide, by decide⟩

end LucidApp
